import Mathlib

/-!
# Verification of the Azurite extent-metadata catalog and blob service handler

Shallow embedding of `src/common/persistence/LokiExtentMetadata.ts` and the
blob `ServiceHandler` (get/set service properties), together with theorems
settling the specification claims about them.

The loki document store is modelled as a list of documents in insertion
order, each carrying its internal sequence number `$loki` (field `loki`
below); insertion assigns `maxId + 1`.  JavaScript exceptions surfaced by
the code (property access on `null`/`undefined`) are modelled with
`Except JsError`.
-/

namespace Azurite

/-- Errors a catalog operation can surface.  `typeError` models a JavaScript
`TypeError` thrown by a property access on `null`/`undefined`; the remaining
constructors name the structured error kinds of the specification's error
table (the catalog code itself never produces them, which some theorems
below make precise). -/
inductive JsError where
  | typeError
  | notFound
  | notInitialized
  | closed
  deriving Repr, DecidableEq

/-- The extent model handed to `updateExtent` (interface `IExtentModel`):
extent id, persistency location id, relative file path, size in bytes and
last-modified wall-clock time in milliseconds. -/
structure IExtentModel where
  id : String
  persistencyId : String
  path : String
  size : Nat
  LastModifyInMS : Int
  deriving Repr, DecidableEq

/-- A document as stored in the loki `$EXTENTS_COLLECTION$`: the extent
model's fields plus the internal sequence number `$loki`. -/
structure ExtentDoc where
  loki : Nat
  id : String
  persistencyId : String
  path : String
  size : Nat
  LastModifyInMS : Int
  deriving Repr, DecidableEq

/-- A loki collection: documents in insertion order plus the highest
`$loki` ever handed out. -/
structure Collection where
  data : List ExtentDoc
  maxId : Nat
  deriving Repr, DecidableEq

/-- `coll.findOne({ id })`: first document whose `id` matches, else null. -/
def findOne (docs : List ExtentDoc) (id : String) : Option ExtentDoc :=
  docs.find? (fun d => d.id == id)

/-- The document a `coll.insert(extent)` appends: loki assigns the next
internal sequence number. -/
def insertedDoc (c : Collection) (extent : IExtentModel) : ExtentDoc :=
  { loki := c.maxId + 1
    id := extent.id
    persistencyId := extent.persistencyId
    path := extent.path
    size := extent.size
    LastModifyInMS := extent.LastModifyInMS }

/-- `coll.insert(extent)`. -/
def Collection.insert (c : Collection) (extent : IExtentModel) : Collection :=
  { data := c.data ++ [insertedDoc c extent], maxId := c.maxId + 1 }

/-- `LokiExtentMetadata.updateExtent`: look the id up; insert when absent,
otherwise mutate the found document's `size` and `LastModifyInMS` and call
`coll.update(doc)` (an in-place replacement, keyed by `$loki`). -/
def updateExtent (c : Collection) (extent : IExtentModel) : Collection :=
  match findOne c.data extent.id with
  | none => c.insert extent
  | some doc =>
    let doc' : ExtentDoc :=
      { doc with size := extent.size, LastModifyInMS := extent.LastModifyInMS }
    { c with data := c.data.map (fun d => if d.loki = doc.loki then doc' else d) }

/-- `LokiExtentMetadata.deleteExtent`: `coll.findAndRemove({ id: extentId })`
removes every matching document, result unused. -/
def deleteExtent (c : Collection) (extentId : String) : Collection :=
  { c with data := c.data.filter (fun d => !(d.id == extentId)) }

/-- `LokiExtentMetadata.getExtentPersistencyId`: `findOne` then an
unconditional `doc.persistencyId` access — on a missing id `findOne`
returns `null` and the property access throws a `TypeError`. -/
def getExtentPersistencyId (c : Collection) (extentId : String) :
    Except JsError String :=
  match findOne c.data extentId with
  | none => .error .typeError
  | some doc => .ok doc.persistencyId

/-- The mongo-style query object `listExtents` builds: optional exact `id`,
optional strict upper bound on `LastModifyInMS` (`$lt`), and a `$gt` bound
on `$loki` whose operand may itself be `undefined`. -/
structure ExtentQuery where
  id : Option String := none
  lastModifyLt : Option Int := none
  lokiGt : Option (Option Nat) := none
  deriving Repr, DecidableEq

/-- Loki's `$gt` against a possibly-`undefined` operand: an `undefined`
bound matches every document ("no lower bound"). -/
def gtMarker (marker : Option Nat) (loki : Nat) : Bool :=
  match marker with
  | none => true
  | some m => m < loki

/-- Whether a document satisfies the query object. -/
def docMatches (q : ExtentQuery) (d : ExtentDoc) : Bool :=
  (match q.id with | none => true | some i => d.id == i) &&
  (match q.lastModifyLt with | none => true | some t => d.LastModifyInMS < t) &&
  (match q.lokiGt with | none => true | some m => gtMarker m d.loki)

/-- The query `listExtents` assembles from its arguments, mirroring the
source's step-by-step construction (`query.id`, `query.LastModifyInMS`,
`query.$loki`). -/
def buildQuery (id : Option String) (marker : Option Nat)
    (queryTime : Option Int) (unmodifiedTime : Option Int) : ExtentQuery :=
  let q : ExtentQuery := {}
  let q := match id with
    | none => q
    | some i => { q with id := some i }
  let q := match queryTime with
    | none => q
    | some t => { q with lastModifyLt := some (t - unmodifiedTime.getD 0 * 1000) }
  { q with lokiGt := some marker }

/-- `LokiExtentMetadata.listExtents`.  `maxResults` defaults to 5000,
`UnmodifiedTime` to 0; `chain().find(query).limit(maxResults).data()`
returns the first `maxResults` matching documents in `$loki` order.  When
the page is not full the next marker is `undefined`; otherwise it is
`docs[docs.length - 1].$loki` — an access that throws a `TypeError` when
`maxResults = 0` leaves the page empty. -/
def listExtents (c : Collection) (id : Option String) (maxResults : Option Nat)
    (marker : Option Nat) (queryTime : Option Int) (unmodifiedTime : Option Int) :
    Except JsError (List ExtentDoc × Option Nat) :=
  let maxResults := maxResults.getD 5000
  let q := buildQuery id marker queryTime unmodifiedTime
  let docs := (c.data.filter (docMatches q)).take maxResults
  if docs.length < maxResults then
    .ok (docs, none)
  else
    match docs.getLast? with
    | none => .error .typeError
    | some last => .ok (docs, some last.loki)

/-! ## The `LokiExtentMetadata` object itself

The class holds a loki database handle together with `initialized` and
`closed` flags.  `init` creates the `$EXTENTS_COLLECTION$` when absent and
sets the flags; `close` flushes the database to disk and sets `closed`
(the in-memory collection is untouched).  None of the data operations
consult the flags: before `init`, `db.getCollection` returns `null` and
the following method call throws a `TypeError`; after `close`, the
operations keep working against the in-memory collection. -/

/-- State of a `LokiExtentMetadata` instance: the flags and the
`$EXTENTS_COLLECTION$` (absent until `init` creates it). -/
structure LokiExtentMetadata where
  initialized : Bool := false
  closed : Bool := false
  collection : Option Collection := none
  deriving Repr, DecidableEq

namespace LokiExtentMetadata

/-- A freshly constructed instance: flags down, no collection yet. -/
def new : LokiExtentMetadata := {}

/-- `init`: create the collection when `getCollection` returns `null`,
save, then mark `initialized := true`, `closed := false`. -/
def init (s : LokiExtentMetadata) : LokiExtentMetadata :=
  let s := match s.collection with
    | none => { s with collection := some { data := [], maxId := 0 } }
    | some _ => s
  { s with initialized := true, closed := false }

/-- `close`: flush the database and mark `closed := true`. -/
def close (s : LokiExtentMetadata) : LokiExtentMetadata :=
  { s with closed := true }

/-- `updateExtent` dispatched through `db.getCollection`: a `null`
collection makes `coll.findOne` throw. -/
def updateExtent (s : LokiExtentMetadata) (extent : IExtentModel) :
    Except JsError LokiExtentMetadata :=
  match s.collection with
  | none => .error .typeError
  | some c => .ok { s with collection := some (Azurite.updateExtent c extent) }

/-- `deleteExtent` dispatched through `db.getCollection`. -/
def deleteExtent (s : LokiExtentMetadata) (extentId : String) :
    Except JsError LokiExtentMetadata :=
  match s.collection with
  | none => .error .typeError
  | some c => .ok { s with collection := some (Azurite.deleteExtent c extentId) }

/-- `listExtents` dispatched through `db.getCollection`. -/
def listExtents (s : LokiExtentMetadata) (id : Option String)
    (maxResults : Option Nat) (marker : Option Nat) (queryTime : Option Int)
    (unmodifiedTime : Option Int) :
    Except JsError (List ExtentDoc × Option Nat) :=
  match s.collection with
  | none => .error .typeError
  | some c => Azurite.listExtents c id maxResults marker queryTime unmodifiedTime

/-- `getExtentPersistencyId` dispatched through `db.getCollection`. -/
def getExtentPersistencyId (s : LokiExtentMetadata) (extentId : String) :
    Except JsError String :=
  match s.collection with
  | none => .error .typeError
  | some c => Azurite.getExtentPersistencyId c extentId

end LokiExtentMetadata

/-! ## Blob `ServiceHandler`: service properties -/

/-- Modelled from the spec: `BLOB_API_VERSION` lives in
`src/utils/constants.ts`, which is not part of the sources; the spec only
says it is "the current emulator version".  The claims compare the handler's
output against this constant itself, so its concrete value is immaterial. -/
def BLOB_API_VERSION : String := "2019-02-02"

/-- A CORS rule (generated model `Models.CorsRule`); its contents are never
inspected by the handler. -/
structure CorsRule where
  allowedOrigins : String
  allowedMethods : String
  allowedHeaders : String
  exposedHeaders : String
  maxAgeInSeconds : Nat
  deriving Repr, DecidableEq

/-- Generated model `Models.RetentionPolicy`. -/
structure RetentionPolicy where
  enabled : Bool
  days : Option Nat := none
  deriving Repr, DecidableEq

/-- Generated model `Models.Logging`. -/
structure Logging where
  version : String
  deleteProperty : Bool
  read : Bool
  write : Bool
  retentionPolicy : RetentionPolicy
  deriving Repr, DecidableEq

/-- Generated model `Models.Metrics`. -/
structure Metrics where
  version : Option String := none
  enabled : Bool
  includeAPIs : Option Bool := none
  retentionPolicy : Option RetentionPolicy := none
  deriving Repr, DecidableEq

/-- Generated model `Models.StaticWebsite`. -/
structure StaticWebsite where
  enabled : Bool
  indexDocument : Option String := none
  errorDocument404Path : Option String := none
  deriving Repr, DecidableEq

/-- Generated model `Models.StorageServiceProperties`: every top-level
field is optional (may be absent from a request or a stored document). -/
structure StorageServiceProperties where
  logging : Option Logging := none
  hourMetrics : Option Metrics := none
  minuteMetrics : Option Metrics := none
  cors : Option (List CorsRule) := none
  defaultServiceVersion : Option String := none
  deleteRetentionPolicy : Option RetentionPolicy := none
  staticWebsite : Option StaticWebsite := none
  deriving Repr, DecidableEq

/-- A stored service-properties document: the properties keyed by account
name. -/
structure ServicePropertiesModel extends StorageServiceProperties where
  accountName : String
  deriving Repr, DecidableEq

/-- `ServiceHandler.defaultServiceProperties`, field for field. -/
def defaultServiceProperties : StorageServiceProperties :=
  { cors := some []
    defaultServiceVersion := some BLOB_API_VERSION
    hourMetrics := some
      { enabled := false
        retentionPolicy := some { enabled := false }
        version := some "1.0" }
    logging := some
      { deleteProperty := true
        read := true
        retentionPolicy := { enabled := false }
        version := "1.0"
        write := true }
    minuteMetrics := some
      { enabled := false
        retentionPolicy := some { enabled := false }
        version := some "1.0" }
    staticWebsite := some { enabled := false } }

/-- The response of `ServiceHandler.getProperties`: the (possibly
defaulted) properties spread together with request id, status code and API
version. -/
structure ServiceGetPropertiesResponse extends StorageServiceProperties where
  accountName : String
  requestId : Option String
  statusCode : Nat
  version : String
  deriving Repr, DecidableEq

/-- `ServiceHandler.getProperties`: load the account's document, fall back
to the defaults when the store has none, coerce an `undefined` `cors` to
the empty array, and return the spread response. -/
def getProperties (stored : Option ServicePropertiesModel)
    (accountName : String) (contextID : Option String) :
    ServiceGetPropertiesResponse :=
  let properties : ServicePropertiesModel := match stored with
    | none =>
      { toStorageServiceProperties := defaultServiceProperties
        accountName := accountName }
    | some p => p
  let properties := match properties.cors with
    | none => { properties with cors := some [] }
    | some _ => properties
  { properties.toStorageServiceProperties with
    accountName := properties.accountName
    requestId := contextID
    statusCode := 200
    version := BLOB_API_VERSION }

/-- JavaScript `a || b` on an optional string: `undefined` and the empty
string are falsy. -/
def jsOrString (a b : Option String) : Option String :=
  match a with
  | none => b
  | some s => if s = "" then b else some s

/-- JavaScript `a || b` on an optional object: any present object is
truthy. -/
def jsOrObject {α : Type} (a b : Option α) : Option α :=
  match a with
  | none => b
  | some x => some x

/-- `ServiceHandler.setProperties`, returning the document handed to
`dataStore.updateServiceProperties`.  `bodyHasCors` models
`parsedBody.hasOwnProperty("cors") || parsedBody.hasOwnProperty("Cors")`:
when the raw XML body carries no cors element the handler overwrites the
deserializer's spurious empty array with `undefined`.  The merge then uses
a strict `=== undefined` test for `cors` and JavaScript `||` for every
other property. -/
def setProperties (storageServiceProperties : StorageServiceProperties)
    (bodyHasCors : Bool) (stored : Option ServicePropertiesModel)
    (accountName : String) : ServicePropertiesModel :=
  let storageServiceProperties :=
    if bodyHasCors then storageServiceProperties
    else { storageServiceProperties with cors := none }
  let properties : ServicePropertiesModel := match stored with
    | none =>
      { toStorageServiceProperties := defaultServiceProperties
        accountName := accountName }
    | some p => p
  let properties :=
    { properties with
      cors := match storageServiceProperties.cors with
        | none => properties.cors
        | some c => some c
      defaultServiceVersion :=
        jsOrString storageServiceProperties.defaultServiceVersion
          properties.defaultServiceVersion
      deleteRetentionPolicy :=
        jsOrObject storageServiceProperties.deleteRetentionPolicy
          properties.deleteRetentionPolicy
      hourMetrics :=
        jsOrObject storageServiceProperties.hourMetrics properties.hourMetrics
      logging := jsOrObject storageServiceProperties.logging properties.logging
      minuteMetrics :=
        jsOrObject storageServiceProperties.minuteMetrics
          properties.minuteMetrics
      staticWebsite :=
        jsOrObject storageServiceProperties.staticWebsite
          properties.staticWebsite }
  { properties with accountName := accountName }

/-! ## Theorems -/

/-- C1: counterexample.  The claim says an update with an existing id also
rewrites `destinationId` (`persistencyId`) and `relativePath` (`path`); in
the code only `size` and `LastModifyInMS` are written back, so updating the
stored extent `("a", "p1", "f1", 0, 0)` with `("a", "p2", "f2", 5, 9)`
keeps `persistencyId = "p1"` and `path = "f1"`. -/
theorem updateExtent_claim_counterexample :
    (updateExtent ⟨[⟨1, "a", "p1", "f1", 0, 0⟩], 1⟩ ⟨"a", "p2", "f2", 5, 9⟩).data
      = [⟨1, "a", "p1", "f1", 5, 9⟩] := by decide

/-- C1 (amended): `updateExtent e` inserts `e` (with the next `$loki`) when
no record with `e.id` is present; when one is present it updates that
record's `size` and `LastModifyInMS` only — `persistencyId` and `path`
keep their stored values — leaving every other record in place and the
record count unchanged. -/
theorem updateExtent_upsert (c : Collection) (e : IExtentModel) :
    (findOne c.data e.id = none →
      (updateExtent c e).data = c.data ++ [insertedDoc c e]) ∧
    (∀ doc, findOne c.data e.id = some doc →
      { doc with size := e.size, LastModifyInMS := e.LastModifyInMS }
          ∈ (updateExtent c e).data ∧
      (∀ d ∈ c.data, d.loki ≠ doc.loki → d ∈ (updateExtent c e).data) ∧
      (updateExtent c e).data.length = c.data.length) := by
  constructor
  · intro h
    simp [updateExtent, h, Collection.insert]
  · intro doc h
    refine ⟨?_, ?_, ?_⟩
    · have hmem : doc ∈ c.data := List.mem_of_find?_eq_some h
      simp only [updateExtent, h]
      exact List.mem_map.mpr ⟨doc, hmem, by simp⟩
    · intro d hd hloki
      simp only [updateExtent, h]
      exact List.mem_map.mpr ⟨d, hd, by simp [hloki]⟩
    · simp [updateExtent, h]

/-- C1 witness: the amended theorem at concrete inputs, covering both the
insert branch and the update branch. -/
theorem updateExtent_upsert_witness :
    (updateExtent ⟨[], 0⟩ ⟨"a", "p1", "f1", 0, 0⟩).data
      = [] ++ [insertedDoc ⟨[], 0⟩ ⟨"a", "p1", "f1", 0, 0⟩] ∧
    ({ loki := 1, id := "a", persistencyId := "p1", path := "f1", size := 5,
        LastModifyInMS := 9 } : ExtentDoc)
      ∈ (updateExtent ⟨[⟨1, "a", "p1", "f1", 0, 0⟩], 1⟩ ⟨"a", "p2", "f2", 5, 9⟩).data := by
  constructor
  · exact (updateExtent_upsert ⟨[], 0⟩ ⟨"a", "p1", "f1", 0, 0⟩).1 (by decide)
  · exact ((updateExtent_upsert ⟨[⟨1, "a", "p1", "f1", 0, 0⟩], 1⟩
      ⟨"a", "p2", "f2", 5, 9⟩).2 ⟨1, "a", "p1", "f1", 0, 0⟩ (by decide)).1

/-- C5: `deleteExtent` removes every record carrying the id, deleting an
absent id leaves the catalog unchanged, and deleting twice equals deleting
once. -/
theorem deleteExtent_idempotent_spec (c : Collection) (extentId : String) :
    (∀ d ∈ (deleteExtent c extentId).data, d.id ≠ extentId) ∧
    deleteExtent (deleteExtent c extentId) extentId = deleteExtent c extentId ∧
    ((∀ d ∈ c.data, d.id ≠ extentId) → deleteExtent c extentId = c) := by
  refine ⟨?_, ?_, ?_⟩
  · intro d hd
    have := (List.mem_filter.mp hd).2
    simpa using this
  · simp only [deleteExtent, List.filter_filter]
    congr 1
    apply List.filter_congr
    intro d _
    cases h : d.id == extentId <;> simp
  · intro h
    have hf : c.data.filter (fun d => !(d.id == extentId)) = c.data := by
      apply List.filter_eq_self.mpr
      intro d hd
      simpa using h d hd
    simp [deleteExtent, hf]

/-- C5 witness: deleting the id `"x"`, absent from a one-record catalog, is
a no-op, and repeating the deletion changes nothing. -/
theorem deleteExtent_idempotent_spec_witness :
    deleteExtent ⟨[⟨1, "a", "p1", "f1", 0, 0⟩], 1⟩ "x"
        = ⟨[⟨1, "a", "p1", "f1", 0, 0⟩], 1⟩ ∧
    deleteExtent (deleteExtent ⟨[⟨1, "a", "p1", "f1", 0, 0⟩], 1⟩ "x") "x"
        = deleteExtent ⟨[⟨1, "a", "p1", "f1", 0, 0⟩], 1⟩ "x" := by
  constructor
  · exact (deleteExtent_idempotent_spec ⟨[⟨1, "a", "p1", "f1", 0, 0⟩], 1⟩ "x").2.2
      (by decide)
  · exact (deleteExtent_idempotent_spec ⟨[⟨1, "a", "p1", "f1", 0, 0⟩], 1⟩ "x").2.1

/-- C6: on a present id the lookup returns the stored `persistencyId`, but
on a missing id `findOne` yields `null` and the unconditional
`doc.persistencyId` access throws a `TypeError` — not the `NotFound` error
the specification prescribes. -/
theorem getExtentPersistencyId_missing_id_typeError :
    getExtentPersistencyId ⟨[⟨1, "extent1", "p1", "f1", 0, 0⟩], 1⟩ "extent1"
        = .ok "p1" ∧
    getExtentPersistencyId ⟨[⟨1, "extent1", "p1", "f1", 0, 0⟩], 1⟩ "extent2"
        = .error .typeError ∧
    getExtentPersistencyId ⟨[⟨1, "extent1", "p1", "f1", 0, 0⟩], 1⟩ "extent2"
        ≠ .error .notFound := by
  refine ⟨rfl, rfl, fun h => ?_⟩
  exact absurd (Except.error.inj h) (by decide)

/-- C7: `getProperties` for an account whose store holds no document
returns the defaults: empty CORS, hour and minute metrics disabled,
logging with read/write/delete enabled, static website disabled, and
`defaultServiceVersion = BLOB_API_VERSION`. -/
theorem getProperties_default_spec (accountName : String)
    (contextID : Option String) :
    (getProperties none accountName contextID).cors = some [] ∧
    (getProperties none accountName contextID).hourMetrics = some
      { enabled := false, retentionPolicy := some { enabled := false },
        version := some "1.0" } ∧
    (getProperties none accountName contextID).minuteMetrics = some
      { enabled := false, retentionPolicy := some { enabled := false },
        version := some "1.0" } ∧
    (getProperties none accountName contextID).logging = some
      { version := "1.0", deleteProperty := true, read := true, write := true,
        retentionPolicy := { enabled := false } } ∧
    (getProperties none accountName contextID).staticWebsite =
      some { enabled := false } ∧
    (getProperties none accountName contextID).defaultServiceVersion =
      some BLOB_API_VERSION := by
  exact ⟨rfl, rfl, rfl, rfl, rfl, rfl⟩

/-- C10: the `cors` field of a `getProperties` response is never
`undefined`; when the stored document lacks it, the handler coerces it to
the empty array. -/
theorem getProperties_cors_defined (stored : Option ServicePropertiesModel)
    (accountName : String) (contextID : Option String) :
    (getProperties stored accountName contextID).cors ≠ none ∧
    (∀ p, stored = some p → p.cors = none →
      (getProperties stored accountName contextID).cors = some []) := by
  constructor
  · cases stored with
    | none => simp [getProperties, defaultServiceProperties]
    | some p =>
      cases hc : p.cors with
      | none => simp [getProperties, hc]
      | some cs => simp [getProperties, hc]
  · intro p hp hc
    subst hp
    simp [getProperties, hc]

/-- C10 witness: a stored document without a `cors` value comes back with
`cors = some []`. -/
theorem getProperties_cors_defined_witness :
    (getProperties
        (some { toStorageServiceProperties := { cors := none },
                accountName := "account1" })
        "account1" none).cors = some [] := by
  exact (getProperties_cors_defined
    (some { toStorageServiceProperties := { cors := none },
            accountName := "account1" })
    "account1" none).2
    { toStorageServiceProperties := { cors := none }, accountName := "account1" }
    rfl rfl

/-- C9: counterexample.  After `init()` followed by `close()`,
`updateExtent` succeeds against the in-memory collection instead of
failing with a `Closed` error; and before `init()` the failure is a
`TypeError` from the `null` collection, not a `NotInitialized` error. -/
theorem lokiExtentMetadata_gating_counterexample :
    (LokiExtentMetadata.new.init.close.closed = true) ∧
    ((LokiExtentMetadata.new.init.close.updateExtent
        ⟨"a", "p1", "f1", 0, 0⟩).isOk = true) ∧
    (LokiExtentMetadata.new.updateExtent ⟨"a", "p1", "f1", 0, 0⟩
        = .error .typeError) ∧
    JsError.typeError ≠ JsError.notInitialized ∧
    JsError.typeError ≠ JsError.closed := by
  refine ⟨rfl, rfl, rfl, by decide, by decide⟩

/-- C9 (amended): the catalog methods never consult the
`initialized`/`closed` flags.  Invoked on a fresh instance (before
`init()`), every operation fails with a `TypeError` from dereferencing the
`null` collection — not a structured `NotInitialized` error — and invoked
after `close()` on an initialized instance, `updateExtent`, `deleteExtent`
and `listExtents` succeed against the in-memory collection rather than
failing with a `Closed` error. -/
theorem lokiExtentMetadata_no_gating_spec (e : IExtentModel) (extentId : String)
    (id : Option String) (maxResults : Option Nat) (marker : Option Nat)
    (queryTime : Option Int) (unmodifiedTime : Option Int) :
    (LokiExtentMetadata.new.updateExtent e = .error .typeError) ∧
    (LokiExtentMetadata.new.deleteExtent extentId = .error .typeError) ∧
    (LokiExtentMetadata.new.listExtents id maxResults marker queryTime
        unmodifiedTime = .error .typeError) ∧
    (LokiExtentMetadata.new.getExtentPersistencyId extentId
        = .error .typeError) ∧
    (∀ s : LokiExtentMetadata, s.collection.isSome →
      (s.close.updateExtent e).isOk ∧ (s.close.deleteExtent extentId).isOk) := by
  refine ⟨rfl, rfl, rfl, rfl, ?_⟩
  intro s hs
  obtain ⟨c, hc⟩ := Option.isSome_iff_exists.mp hs
  constructor
  · simp [LokiExtentMetadata.close, LokiExtentMetadata.updateExtent, hc,
      Except.isOk, Except.toBool]
  · simp [LokiExtentMetadata.close, LokiExtentMetadata.deleteExtent, hc,
      Except.isOk, Except.toBool]

/-- C9 witness: the amended theorem instantiated on a concrete extent and
the initialized-then-closed instance. -/
theorem lokiExtentMetadata_no_gating_spec_witness :
    (LokiExtentMetadata.new.updateExtent ⟨"a", "p1", "f1", 0, 0⟩
        = .error .typeError) ∧
    (LokiExtentMetadata.new.init.close.updateExtent
        ⟨"a", "p1", "f1", 0, 0⟩).isOk := by
  have h := lokiExtentMetadata_no_gating_spec ⟨"a", "p1", "f1", 0, 0⟩ "a"
    none none none none none
  exact ⟨h.1, (h.2.2.2.2 LokiExtentMetadata.new.init.close (by decide)).1⟩

/-- C8: counterexample.  The merge uses JavaScript `||`, so a request that
supplies `defaultServiceVersion = ""` (a falsy string) does not replace the
stored value: the stored `BLOB_API_VERSION` survives, while the claim
demands every supplied top-level property replace the stored one. -/
theorem setProperties_claim_counterexample :
    (setProperties { defaultServiceVersion := some "" } false
        (some { toStorageServiceProperties := defaultServiceProperties,
                accountName := "account1" })
        "account1").defaultServiceVersion = some BLOB_API_VERSION ∧
    some BLOB_API_VERSION ≠ (some "" : Option String) := by
  exact ⟨rfl, by decide⟩

/-- C8 (amended): `setProperties` merges: a supplied
`deleteRetentionPolicy`, `hourMetrics`, `minuteMetrics`, `logging` or
`staticWebsite` replaces the stored value and an absent one is preserved;
a supplied non-empty `defaultServiceVersion` replaces while an absent — or
empty, since the merge uses JavaScript truthiness — string preserves; and
for CORS a list supplied in the request body (even the empty list)
replaces, while a body without a CORS element preserves the stored
rules. -/
theorem setProperties_merge_spec (req : StorageServiceProperties)
    (bodyHasCors : Bool) (p : ServicePropertiesModel) (accountName : String) :
    ((setProperties req bodyHasCors (some p) accountName).accountName
        = accountName) ∧
    (bodyHasCors = true → ∀ cs, req.cors = some cs →
      (setProperties req bodyHasCors (some p) accountName).cors = some cs) ∧
    (bodyHasCors = false ∨ req.cors = none →
      (setProperties req bodyHasCors (some p) accountName).cors = p.cors) ∧
    (∀ v, req.defaultServiceVersion = some v → v ≠ "" →
      (setProperties req bodyHasCors (some p) accountName).defaultServiceVersion
        = some v) ∧
    (req.defaultServiceVersion = none ∨ req.defaultServiceVersion = some "" →
      (setProperties req bodyHasCors (some p) accountName).defaultServiceVersion
        = p.defaultServiceVersion) ∧
    ((setProperties req bodyHasCors (some p) accountName).deleteRetentionPolicy
        = jsOrObject req.deleteRetentionPolicy p.deleteRetentionPolicy) ∧
    ((setProperties req bodyHasCors (some p) accountName).hourMetrics
        = jsOrObject req.hourMetrics p.hourMetrics) ∧
    ((setProperties req bodyHasCors (some p) accountName).minuteMetrics
        = jsOrObject req.minuteMetrics p.minuteMetrics) ∧
    ((setProperties req bodyHasCors (some p) accountName).logging
        = jsOrObject req.logging p.logging) ∧
    ((setProperties req bodyHasCors (some p) accountName).staticWebsite
        = jsOrObject req.staticWebsite p.staticWebsite) := by
  refine ⟨?_, ?_, ?_, ?_, ?_, ?_, ?_, ?_, ?_, ?_⟩
  · cases bodyHasCors <;> simp [setProperties]
  · rintro rfl cs hcs
    simp [setProperties, hcs]
  · rintro (rfl | hnone)
    · cases hc : req.cors <;> simp [setProperties, hc]
    · cases bodyHasCors <;> simp [setProperties, hnone]
  · intro v hv hne
    cases bodyHasCors <;> simp [setProperties, hv, jsOrString, hne]
  · rintro (hnone | hempty)
    · cases bodyHasCors <;> simp [setProperties, hnone, jsOrString]
    · cases bodyHasCors <;> simp [setProperties, hempty, jsOrString]
  · cases bodyHasCors <;> simp [setProperties]
  · cases bodyHasCors <;> simp [setProperties]
  · cases bodyHasCors <;> simp [setProperties]
  · cases bodyHasCors <;> simp [setProperties]
  · cases bodyHasCors <;> simp [setProperties]

/-- C8 witness: the amended theorem at a concrete request supplying every
property (non-falsy), against a stored default document. -/
theorem setProperties_merge_spec_witness :
    ((setProperties
        { defaultServiceVersion := some "2011-08-18", cors := some [],
          staticWebsite := some { enabled := true } }
        true
        (some { toStorageServiceProperties := defaultServiceProperties,
                accountName := "account1" })
        "account1").cors = some []) ∧
    ((setProperties
        { defaultServiceVersion := some "2011-08-18", cors := some [],
          staticWebsite := some { enabled := true } }
        true
        (some { toStorageServiceProperties := defaultServiceProperties,
                accountName := "account1" })
        "account1").defaultServiceVersion = some "2011-08-18") ∧
    ((setProperties
        { defaultServiceVersion := some "2011-08-18", cors := some [],
          staticWebsite := some { enabled := true } }
        true
        (some { toStorageServiceProperties := defaultServiceProperties,
                accountName := "account1" })
        "account1").staticWebsite
      = jsOrObject (some { enabled := true })
          defaultServiceProperties.staticWebsite) := by
  have h := setProperties_merge_spec
    { defaultServiceVersion := some "2011-08-18", cors := some [],
      staticWebsite := some { enabled := true } }
    true
    { toStorageServiceProperties := defaultServiceProperties,
      accountName := "account1" }
    "account1"
  exact ⟨h.2.1 rfl [] rfl, h.2.2.2.1 "2011-08-18" rfl (by decide),
    h.2.2.2.2.2.2.2.2.2⟩

/-- The list filter in the specification's words: optional exact `id`,
optional `lastModifyMs < queryTime − unmodifiedSeconds·1000` (seconds
defaulting to 0), and the internal sequence strictly beyond the marker
(absence meaning no lower bound). -/
def specListFilter (id : Option String) (marker : Option Nat)
    (queryTime : Option Int) (unmodifiedTime : Option Int)
    (d : ExtentDoc) : Bool :=
  (match id with
    | none => true
    | some i => d.id == i) &&
  (match queryTime with
    | none => true
    | some t => decide (d.LastModifyInMS < t - unmodifiedTime.getD 0 * 1000)) &&
  (match marker with
    | none => true
    | some m => decide (m < d.loki))

/-- The query object `listExtents` builds matches a document exactly when
the specification's filter does. -/
theorem docMatches_buildQuery_eq (id : Option String) (marker : Option Nat)
    (queryTime : Option Int) (unmodifiedTime : Option Int) :
    docMatches (buildQuery id marker queryTime unmodifiedTime) =
      specListFilter id marker queryTime unmodifiedTime := by
  funext d
  cases id <;> cases queryTime <;> cases marker <;>
    simp [buildQuery, docMatches, gtMarker, specListFilter]

/-- Unfolding equation for `listExtents`. -/
theorem listExtents_eq (c : Collection) (id : Option String)
    (maxResults : Option Nat) (marker : Option Nat) (queryTime : Option Int)
    (unmodifiedTime : Option Int) :
    listExtents c id maxResults marker queryTime unmodifiedTime =
      (if ((c.data.filter
            (docMatches (buildQuery id marker queryTime unmodifiedTime))).take
            (maxResults.getD 5000)).length < maxResults.getD 5000 then
        .ok (((c.data.filter
            (docMatches (buildQuery id marker queryTime unmodifiedTime))).take
            (maxResults.getD 5000)), none)
      else
        match ((c.data.filter
            (docMatches (buildQuery id marker queryTime unmodifiedTime))).take
            (maxResults.getD 5000)).getLast? with
        | none => .error .typeError
        | some last =>
          .ok (((c.data.filter
              (docMatches (buildQuery id marker queryTime unmodifiedTime))).take
              (maxResults.getD 5000)), some last.loki)) := rfl

/-- C2: a successful `listExtents` call returns a `nextMarker` exactly when
the page is full (its length equals the effective limit), the marker then
equals the `$loki` of the last returned record, and when the marker is
absent the page holds every record matching the query beyond the supplied
marker — the enumeration's last page. -/
theorem listExtents_nextMarker_spec (c : Collection) (id : Option String)
    (maxResults : Option Nat) (marker : Option Nat) (queryTime : Option Int)
    (unmodifiedTime : Option Int) (docs : List ExtentDoc)
    (nextMarker : Option Nat)
    (hok : listExtents c id maxResults marker queryTime unmodifiedTime
      = .ok (docs, nextMarker)) :
    (nextMarker.isSome = true ↔ docs.length = maxResults.getD 5000) ∧
    (∀ m, nextMarker = some m →
      ∃ last, docs.getLast? = some last ∧ last.loki = m) ∧
    (nextMarker = none → ∀ d ∈ c.data,
      docMatches (buildQuery id marker queryTime unmodifiedTime) d = true →
        d ∈ docs) := by
  rw [listExtents_eq] at hok
  set L := c.data.filter (docMatches (buildQuery id marker queryTime unmodifiedTime))
    with hL
  set mr := maxResults.getD 5000 with hmr
  by_cases hlen : (L.take mr).length < mr
  · rw [if_pos hlen] at hok
    have hpair := Except.ok.inj hok
    have hdocs : docs = L.take mr := (congrArg Prod.fst hpair).symm
    have hnm : nextMarker = none := (congrArg Prod.snd hpair).symm
    subst hdocs; subst hnm
    refine ⟨?_, ?_, ?_⟩
    · constructor
      · intro h; exact Bool.noConfusion h
      · intro h; exact absurd h (Nat.ne_of_lt hlen)
    · intro m h; cases h
    · intro _ d hd hmatch
      have hLlen : L.length < mr := by
        rw [List.length_take] at hlen
        rcases min_lt_iff.mp hlen with h | h
        · exact absurd h (lt_irrefl mr)
        · exact h
      rw [List.take_of_length_le (Nat.le_of_lt hLlen)]
      rw [hL]
      exact List.mem_filter.mpr ⟨hd, hmatch⟩
  · rw [if_neg hlen] at hok
    cases hg : (L.take mr).getLast? with
    | none => rw [hg] at hok; simp at hok
    | some last =>
      rw [hg] at hok
      have hpair := Except.ok.inj hok
      have hdocs : docs = L.take mr := (congrArg Prod.fst hpair).symm
      have hnm : nextMarker = some last.loki := (congrArg Prod.snd hpair).symm
      subst hdocs; subst hnm
      refine ⟨?_, ?_, ?_⟩
      · have hle : (L.take mr).length ≤ mr := List.length_take_le mr L
        constructor
        · intro _; exact Nat.le_antisymm hle (Nat.le_of_not_lt hlen)
        · intro _; rfl
      · intro m h
        exact ⟨last, hg, (Option.some.inj h)⟩
      · intro h; cases h

/-- C2 witness: three matching records with a limit of 2 give a full page
and `nextMarker = 2`, the `$loki` of the last record returned. -/
theorem listExtents_nextMarker_spec_witness :
    ((some 2 : Option Nat).isSome = true ↔
      ([⟨1, "a", "p", "f", 0, 0⟩, ⟨2, "b", "p", "f", 0, 5⟩] :
        List ExtentDoc).length = (some 2 : Option Nat).getD 5000) ∧
    (∀ m, (some 2 : Option Nat) = some m →
      ∃ last, ([⟨1, "a", "p", "f", 0, 0⟩, ⟨2, "b", "p", "f", 0, 5⟩] :
        List ExtentDoc).getLast? = some last ∧ last.loki = m) ∧
    ((some 2 : Option Nat) = none →
      ∀ d ∈ ([⟨1, "a", "p", "f", 0, 0⟩, ⟨2, "b", "p", "f", 0, 5⟩,
          ⟨3, "c", "p", "f", 0, 10⟩] : List ExtentDoc),
        docMatches (buildQuery none none none none) d = true →
          d ∈ ([⟨1, "a", "p", "f", 0, 0⟩, ⟨2, "b", "p", "f", 0, 5⟩] :
            List ExtentDoc)) :=
  listExtents_nextMarker_spec
    ⟨[⟨1, "a", "p", "f", 0, 0⟩, ⟨2, "b", "p", "f", 0, 5⟩,
      ⟨3, "c", "p", "f", 0, 10⟩], 3⟩
    none (some 2) none none none
    [⟨1, "a", "p", "f", 0, 0⟩, ⟨2, "b", "p", "f", 0, 5⟩] (some 2) rfl

/-- C4: a successful `listExtents` call returns the first
`maxResults.getD 5000` records that pass the filter — exact id when one is
supplied, `LastModifyInMS < queryTime − unmodifiedSeconds·1000` when a
query time is supplied (with the seconds defaulting to 0), and `$loki`
beyond the marker — and the page never exceeds the limit, which defaults
to 5000 when omitted. -/
theorem listExtents_filter_spec (c : Collection) (id : Option String)
    (maxResults : Option Nat) (marker : Option Nat) (queryTime : Option Int)
    (unmodifiedTime : Option Int) (docs : List ExtentDoc)
    (nextMarker : Option Nat)
    (hok : listExtents c id maxResults marker queryTime unmodifiedTime
      = .ok (docs, nextMarker)) :
    docs = (c.data.filter
        (specListFilter id marker queryTime unmodifiedTime)).take
      (maxResults.getD 5000) ∧
    docs.length ≤ maxResults.getD 5000 := by
  have hpred := docMatches_buildQuery_eq id marker queryTime unmodifiedTime
  rw [listExtents_eq] at hok
  set L := c.data.filter (docMatches (buildQuery id marker queryTime unmodifiedTime))
    with hL
  set mr := maxResults.getD 5000 with hmr
  have hdocs : docs = L.take mr := by
    by_cases hlen : (L.take mr).length < mr
    · rw [if_pos hlen] at hok
      exact (congrArg Prod.fst (Except.ok.inj hok)).symm
    · rw [if_neg hlen] at hok
      cases hg : (L.take mr).getLast? with
      | none => rw [hg] at hok; simp at hok
      | some last =>
        rw [hg] at hok
        exact (congrArg Prod.fst (Except.ok.inj hok)).symm
  constructor
  · rw [hdocs, hL, hpred]
  · rw [hdocs]
    exact List.length_take_le mr L

/-- C4 witness: with a query time of 7, no explicit seconds and a default
limit, only the records last modified strictly before 7 come back. -/
theorem listExtents_filter_spec_witness :
    ([⟨1, "a", "p", "f", 0, 0⟩, ⟨2, "b", "p", "f", 0, 5⟩] : List ExtentDoc) =
      (([⟨1, "a", "p", "f", 0, 0⟩, ⟨2, "b", "p", "f", 0, 5⟩,
          ⟨3, "c", "p", "f", 0, 10⟩] : List ExtentDoc).filter
        (specListFilter none none (some 7) none)).take
        ((none : Option Nat).getD 5000) ∧
    ([⟨1, "a", "p", "f", 0, 0⟩, ⟨2, "b", "p", "f", 0, 5⟩] :
      List ExtentDoc).length ≤ (none : Option Nat).getD 5000 :=
  listExtents_filter_spec
    ⟨[⟨1, "a", "p", "f", 0, 0⟩, ⟨2, "b", "p", "f", 0, 5⟩,
      ⟨3, "c", "p", "f", 0, 10⟩], 3⟩
    none none none (some 7) none
    [⟨1, "a", "p", "f", 0, 0⟩, ⟨2, "b", "p", "f", 0, 5⟩] none rfl

/-! ### Paged iteration (claim C3)

The iteration protocol of the specification: start with the marker absent
and re-issue `listExtents` with each returned `nextMarker` until it is
absent, concatenating the pages.  The `fuel` argument bounds the number of
round trips; any bound beyond the number of matching records suffices. -/

/-- Concatenate successive `listExtents` pages, following returned markers
until one is absent (or the fuel runs out). -/
def listAllPages (c : Collection) (id : Option String) (maxResults : Option Nat)
    (queryTime : Option Int) (unmodifiedTime : Option Int) :
    Nat → Option Nat → Except JsError (List ExtentDoc)
  | 0, _ => .ok []
  | fuel + 1, marker =>
    match listExtents c id maxResults marker queryTime unmodifiedTime with
    | .error e => .error e
    | .ok (docs, none) => .ok docs
    | .ok (docs, some m) =>
      match listAllPages c id maxResults queryTime unmodifiedTime fuel (some m) with
      | .error e => .error e
      | .ok rest => .ok (docs ++ rest)

/-- Splitting the query: matching with a marker is matching with no marker
plus the `$loki` bound. -/
theorem filter_buildQuery_marker (c : Collection) (id : Option String)
    (marker : Option Nat) (queryTime : Option Int) (unmodifiedTime : Option Int) :
    c.data.filter (docMatches (buildQuery id marker queryTime unmodifiedTime)) =
      (c.data.filter
          (docMatches (buildQuery id none queryTime unmodifiedTime))).filter
        (fun d => gtMarker marker d.loki) := by
  rw [List.filter_filter]
  apply List.filter_congr
  intro d _
  cases id <;> cases queryTime <;> cases marker <;>
    simp [buildQuery, docMatches, gtMarker, Bool.and_comm, Bool.and_assoc,
      Bool.and_left_comm]

/-- In a list strictly sorted on `loki`, every element's `loki` is at most
the last element's. -/
theorem loki_le_of_getLast? (S : List ExtentDoc)
    (hS : S.Pairwise (fun a b => a.loki < b.loki))
    (l : ExtentDoc) (hl : S.getLast? = some l) :
    ∀ d ∈ S, d.loki ≤ l.loki := by
  induction S with
  | nil => cases hl
  | cons a S ih =>
    cases S with
    | nil =>
      rw [List.getLast?_singleton] at hl
      cases hl
      intro d hd
      rw [List.mem_singleton] at hd
      exact hd ▸ Nat.le_refl _
    | cons b S =>
      rw [List.getLast?_cons_cons] at hl
      have htail := List.pairwise_cons.mp hS
      intro d hd
      rcases List.mem_cons.mp hd with rfl | hd'
      · have hmem : l ∈ b :: S := List.mem_of_mem_getLast? hl
        exact Nat.le_of_lt (htail.1 l hmem)
      · exact ih htail.2 hl d hd'

/-- In a list strictly sorted on `loki`, filtering by "strictly beyond the
last `loki` of the first `n` elements" is dropping those `n` elements. -/
theorem filter_gt_take_getLast (S : List ExtentDoc)
    (hS : S.Pairwise (fun a b => a.loki < b.loki)) (n : Nat)
    (l : ExtentDoc) (hl : (S.take n).getLast? = some l) :
    S.filter (fun d => gtMarker (some l.loki) d.loki) = S.drop n := by
  conv_lhs => rw [← List.take_append_drop n S]
  rw [List.filter_append]
  have hpw := (List.take_append_drop n S) ▸ hS
  have hparts := List.pairwise_append.mp hpw
  have htake : (S.take n).filter (fun d => gtMarker (some l.loki) d.loki) = [] := by
    rw [List.filter_eq_nil_iff]
    intro d hd
    have hle : d.loki ≤ l.loki :=
      loki_le_of_getLast? (S.take n)
        (List.Pairwise.sublist (List.take_sublist n S) hS) l hl d hd
    simp [gtMarker]
    omega
  have hdrop : (S.drop n).filter (fun d => gtMarker (some l.loki) d.loki)
      = S.drop n := by
    rw [List.filter_eq_self]
    intro d hd
    have hlt : l.loki < d.loki :=
      hparts.2.2 l (List.mem_of_mem_getLast? hl) d hd
    simp [gtMarker, hlt]
  rw [htake, hdrop, List.nil_append]

/-- When the bound `b` already lies beyond the marker, constraining by the
marker and by `$loki > b` is the same as constraining by `$loki > b`
alone. -/
theorem gtMarker_absorb (marker : Option Nat) (b : Nat)
    (h : gtMarker marker b = true) :
    (fun d : ExtentDoc => gtMarker (some b) d.loki) =
      (fun d => gtMarker (some b) d.loki && gtMarker marker d.loki) := by
  funext d
  cases marker with
  | none => simp [gtMarker]
  | some m =>
    simp only [gtMarker] at h ⊢
    have hm : m < b := of_decide_eq_true h
    by_cases hd : b < d.loki
    · have : m < d.loki := Nat.lt_trans hm hd
      simp [hd, this]
    · simp [hd]

/-- The generalized completeness invariant: from any marker, with enough
fuel, the concatenation of the remaining pages is exactly the list of
records matching the query with that marker. -/
theorem listAllPages_eq_filter_aux (c : Collection) (id : Option String)
    (maxResults : Option Nat) (queryTime : Option Int)
    (unmodifiedTime : Option Int)
    (hsorted : c.data.Pairwise (fun a b => a.loki < b.loki))
    (hmax : 0 < maxResults.getD 5000) :
    ∀ (fuel : Nat) (marker : Option Nat),
      (c.data.filter
        (docMatches (buildQuery id marker queryTime unmodifiedTime))).length
          < fuel →
      listAllPages c id maxResults queryTime unmodifiedTime fuel marker =
        .ok (c.data.filter
          (docMatches (buildQuery id marker queryTime unmodifiedTime))) := by
  intro fuel
  induction fuel with
  | zero => intro marker h; exact absurd h (Nat.not_lt_zero _)
  | succ fuel ih =>
    intro marker hlen
    have hM : c.data.Pairwise (fun a b => a.loki < b.loki) := hsorted
    set M := c.data.filter (docMatches (buildQuery id none queryTime unmodifiedTime))
      with hMdef
    have hMsorted : M.Pairwise (fun a b => a.loki < b.loki) :=
      List.Pairwise.sublist (List.filter_sublist c.data) hsorted
    have hsplit := filter_buildQuery_marker c id marker queryTime unmodifiedTime
    rw [← hMdef] at hsplit
    set L := M.filter (fun d => gtMarker marker d.loki) with hLdef
    have hLsorted : L.Pairwise (fun a b => a.loki < b.loki) :=
      List.Pairwise.sublist (List.filter_sublist M) hMsorted
    rw [hsplit] at hlen ⊢
    set mr := maxResults.getD 5000 with hmr
    show ((match listExtents c id maxResults marker queryTime unmodifiedTime with
      | Except.error e => Except.error e
      | Except.ok (docs, none) => Except.ok docs
      | Except.ok (docs, some m) =>
        match listAllPages c id maxResults queryTime unmodifiedTime fuel (some m) with
        | Except.error e => Except.error e
        | Except.ok rest => Except.ok (docs ++ rest)) :
      Except JsError (List ExtentDoc)) = Except.ok L
    rw [listExtents_eq, hsplit, ← hmr]
    by_cases hfull : (L.take mr).length < mr
    · rw [if_pos hfull]
      have hLshort : L.length < mr := by
        rw [List.length_take] at hfull
        rcases min_lt_iff.mp hfull with h | h
        · exact absurd h (lt_irrefl mr)
        · exact h
      rw [List.take_of_length_le (Nat.le_of_lt hLshort)]
    · rw [if_neg hfull]
      have htlen : (L.take mr).length = mr :=
        Nat.le_antisymm (List.length_take_le mr L) (Nat.le_of_not_lt hfull)
      have hne : L.take mr ≠ [] := by
        intro h
        rw [h] at htlen
        exact absurd htlen.symm (Nat.ne_of_gt hmax)
      obtain ⟨l, hl⟩ := Option.isSome_iff_exists.mp (List.getLast?_isSome.mpr hne)
      rw [hl]
      have hLlong : mr ≤ L.length := by
        rw [List.length_take] at htlen
        rcases Nat.le_total L.length mr with h | h
        · rw [min_eq_right h] at htlen
          omega
        · exact h
      have hlq : gtMarker marker l.loki = true := by
        have hmemt : l ∈ L.take mr := List.mem_of_mem_getLast? hl
        have hmem : l ∈ L := List.mem_of_mem_take hmemt
        rw [hLdef] at hmem
        exact (List.mem_filter.mp hmem).2
      have hnext : c.data.filter
          (docMatches (buildQuery id (some l.loki) queryTime unmodifiedTime))
            = L.drop mr := by
        rw [filter_buildQuery_marker c id (some l.loki) queryTime unmodifiedTime,
          ← hMdef, gtMarker_absorb marker l.loki hlq, ← List.filter_filter,
          ← hLdef]
        exact filter_gt_take_getLast L hLsorted mr l hl
      have hrec := ih (some l.loki) (by
        rw [hnext, List.length_drop]
        omega)
      show (match listAllPages c id maxResults queryTime unmodifiedTime fuel
          (some l.loki) with
        | Except.error e => Except.error e
        | Except.ok rest => Except.ok (List.take mr L ++ rest)) = Except.ok L
      rw [hrec, hnext]
      show Except.ok (List.take mr L ++ List.drop mr L) = Except.ok L
      rw [List.take_append_drop]

/-- C3: paged listing is complete.  For a catalog strictly sorted on the
internal sequence, a positive page limit and any fuel beyond the catalog
size, starting with the marker absent and following returned markers until
one is absent concatenates to exactly the records matching the filter at
the moment iteration began — each exactly once, the result being
duplicate-free. -/
theorem listExtents_paging_complete (c : Collection) (id : Option String)
    (maxResults : Option Nat) (queryTime : Option Int)
    (unmodifiedTime : Option Int) (fuel : Nat)
    (hsorted : c.data.Pairwise (fun a b => a.loki < b.loki))
    (hmax : 0 < maxResults.getD 5000)
    (hfuel : c.data.length < fuel) :
    listAllPages c id maxResults queryTime unmodifiedTime fuel none =
      .ok (c.data.filter (specListFilter id none queryTime unmodifiedTime)) ∧
    (c.data.filter (specListFilter id none queryTime unmodifiedTime)).Nodup := by
  have h := listAllPages_eq_filter_aux c id maxResults queryTime unmodifiedTime
    hsorted hmax fuel none
    (Nat.lt_of_le_of_lt (List.length_filter_le _ c.data) hfuel)
  rw [docMatches_buildQuery_eq] at h
  refine ⟨h, ?_⟩
  have hpw : (c.data.filter
      (specListFilter id none queryTime unmodifiedTime)).Pairwise
        (fun a b => a.loki < b.loki) :=
    List.Pairwise.sublist (List.filter_sublist c.data) hsorted
  exact List.Pairwise.imp (fun hab => fun he => absurd (he ▸ hab) (lt_irrefl _)) hpw

/-- C3 witness: three records, page limit 2: two round trips return all
three records exactly once. -/
theorem listExtents_paging_complete_witness :
    listAllPages
        ⟨[⟨1, "a", "p", "f", 0, 0⟩, ⟨2, "b", "p", "f", 0, 5⟩,
          ⟨3, "c", "p", "f", 0, 10⟩], 3⟩
        none (some 2) none none 4 none =
      .ok ((⟨[⟨1, "a", "p", "f", 0, 0⟩, ⟨2, "b", "p", "f", 0, 5⟩,
          ⟨3, "c", "p", "f", 0, 10⟩], 3⟩ : Collection).data.filter
        (specListFilter none none none none)) ∧
    ((⟨[⟨1, "a", "p", "f", 0, 0⟩, ⟨2, "b", "p", "f", 0, 5⟩,
        ⟨3, "c", "p", "f", 0, 10⟩], 3⟩ : Collection).data.filter
      (specListFilter none none none none)).Nodup :=
  listExtents_paging_complete
    ⟨[⟨1, "a", "p", "f", 0, 0⟩, ⟨2, "b", "p", "f", 0, 5⟩,
      ⟨3, "c", "p", "f", 0, 10⟩], 3⟩
    none (some 2) none none 4
    (by decide) (by decide) (by decide)

end Azurite
